import Mathlib

/-!
Verification of the react-audio-spectrogram-player core against its
natural-language specification.

The development shallowly embeds the relevant source modules:

* `WebAudioEngine` (src/unnamed/part_009) — the buffer-graph backend with
  its synthesized anchor clock.
* `HTML5AudioEngine` (src/src/lib/AudioEngine.ts) — the device-element
  backend.
* `SpectrogramWorkerManager` (src/src/lib/worker-manager.ts) — the worker
  pool with fault replacement.
* the chunking / batching / stitching query function of
  `SpectrogramGraphics` (src/src/lib/SpectrogramGraphics.tsx).
* `ZoomProvider` (src/unnamed/part_010) — the viewport navigation state
  machine, including the per-mode time-update handler, paging, zooming and
  recentering.

Times, rates and durations are modelled as rationals (the source uses JS
doubles; every constant appearing in the claims is exactly representable,
so ℚ keeps the arithmetic exact and decidable).  Device clocks are passed
in explicitly where the source reads `context.currentTime` or
`Date.now()`.
-/

namespace SpecPlayer

/-! ## WebAudioEngine (src/unnamed/part_009)

State of the buffer-graph backend.  Presence of the `AudioContext`,
`GainNode`, `AudioBufferSourceNode` and decoded `AudioBuffer` is tracked
with booleans; `sourceLoop` is the `loop` flag of the live source node
(meaningful while `hasSource` is true). -/

structure WAState where
  hasContext : Bool
  hasGain : Bool
  hasBuffer : Bool
  hasSource : Bool
  bufferDuration : ℚ
  startTime : ℚ
  pausedAt : ℚ
  isPlaying : Bool
  playbackRate : ℚ
  loopMode : Bool
  loopStart : ℚ
  loopEnd : ℚ
  volume : ℚ
  sourceLoop : Bool
  deriving Repr, DecidableEq

namespace WAState

/-- `getDuration()`: `audioBuffer ? audioBuffer.duration : 0`. -/
def getDuration (st : WAState) : ℚ :=
  if st.hasBuffer then st.bufferDuration else 0

/-- `getCurrentTime()` (part_009 lines 130–137): while playing,
`pausedAt + (context.currentTime - startTime) * playbackRate`; otherwise
(or with no context) the frozen `pausedAt`.  `now` is the device clock
`context.currentTime`. -/
def getCurrentTime (st : WAState) (now : ℚ) : ℚ :=
  if !st.hasContext || !st.isPlaying then st.pausedAt
  else st.pausedAt + (now - st.startTime) * st.playbackRate

/-- `setPlaybackRate(rate)` (part_009 lines 142–149): stores the rate and
updates the live source node's rate.  It touches neither `pausedAt` nor
`startTime`. -/
def setPlaybackRate (st : WAState) (rate : ℚ) : WAState :=
  { st with playbackRate := rate }

/-- `setLoopMode(enabled, start, end)` (part_009 lines 155–166): stores the
three fields and, if a source node is live, sets its native `loop` flag to
`enabled` — irrespective of the range. -/
def setLoopMode (st : WAState) (enabled : Bool) (start finish : ℚ) : WAState :=
  { st with
    loopMode := enabled, loopStart := start, loopEnd := finish,
    sourceLoop := if st.hasSource then enabled else st.sourceLoop }

/-- `play(startFrom)` (part_009 lines 171–262).  Returns `false` when the
context, decoded buffer or gain node is missing.  Otherwise it creates a
fresh source node, computes `offset = max(0, startFrom)`, resets
`pausedAt` to `0` when `offset ≥ audioBuffer.duration` and to `offset`
otherwise, anchors `startTime` to the device clock, copies `loopMode`
onto the node's native flag, marks `isPlaying` and returns `true`.
`now` is `context.currentTime` at the call. -/
def play (st : WAState) (now : ℚ) (startFrom : ℚ) : WAState × Bool :=
  if !st.hasContext || !st.hasBuffer || !st.hasGain then (st, false)
  else
    let offset : ℚ := max 0 startFrom
    let pausedAt' : ℚ := if st.bufferDuration ≤ offset then 0 else offset
    ({ st with
        hasSource := true
        sourceLoop := st.loopMode
        pausedAt := pausedAt'
        startTime := now
        isPlaying := true }, true)

/-- `play()` with the default argument `this.pausedAt`. -/
def playDefault (st : WAState) (now : ℚ) : WAState × Bool :=
  st.play now st.pausedAt

/-- `pause()` (part_009 lines 267–296): no-op unless playing with a
context; otherwise folds the rate-scaled elapsed device time into
`pausedAt`, discards the source node and clears `isPlaying`. -/
def pause (st : WAState) (now : ℚ) : WAState :=
  if !st.isPlaying || !st.hasContext then st
  else
    { st with
      pausedAt := st.pausedAt + (now - st.startTime) * st.playbackRate
      hasSource := false
      isPlaying := false }

/-- `seek(newTime)` (part_009 lines 301–344), immediate part: clamps the
target to `[0, duration]` and stores it in `pausedAt` regardless of play
state.  When playing, the source node is stopped and a deferred
`play(pausedAt)` is scheduled ~20 ms later; `seekSettled` below includes
that deferred restart. -/
def seek (st : WAState) (newTime : ℚ) : WAState :=
  { st with pausedAt := max 0 (min newTime st.getDuration) }

/-- A `seek` after its deferred restart (the `setTimeout` at part_009
lines 329–334) has fired at device time `now`; when not playing the
restart never fires. -/
def seekSettled (st : WAState) (newTime now : ℚ) : WAState :=
  let st' := st.seek newTime
  if st.isPlaying then (st'.play now st'.pausedAt).1 else st'

/-- `setVolume(volume)`: clamps to `[0, 1]`. -/
def setVolume (st : WAState) (v : ℚ) : WAState :=
  if !st.hasGain then st else { st with volume := max 0 (min 1 v) }

/-- A state with context, gain and a decoded buffer of duration `d`:
the configuration reached after `initialize()` and a successful
`loadAudioData`, before any transport call. -/
def ready (d : ℚ) : WAState :=
  { hasContext := true, hasGain := true, hasBuffer := true, hasSource := false
    bufferDuration := d, startTime := 0, pausedAt := 0, isPlaying := false
    playbackRate := 1, loopMode := false, loopStart := 0, loopEnd := 0
    volume := 1, sourceLoop := false }

end WAState

/-! ## HTML5AudioEngine (src/src/lib/AudioEngine.ts, lines 156–427)

The device element is modelled by the fields the engine touches.  The
device may reject an asynchronous `audio.play()` request (e.g. missing
user gesture); that outcome is an input to the model. -/

structure H5State where
  srcLoaded : Bool
  currentTime : ℚ
  duration : ℚ
  paused : Bool
  playbackRate : ℚ
  volume : ℚ
  nativeLoop : Bool
  loopMode : Bool
  loopStart : ℚ
  loopEnd : ℚ
  deriving Repr, DecidableEq

/-- Outcome of a `play` call as seen across the engine interface. -/
structure PlayOutcome where
  returned : Bool
  threw : Bool
  deriving Repr, DecidableEq

namespace H5State

/-- `HTML5AudioEngine.play(startFrom?)` (AudioEngine.ts lines 242–267).
If `startFrom` is given the element's `currentTime` is assigned first.
`audio.play()` yields a promise; when the device rejects it the rejection
is consumed by an attached `.catch` handler that only logs (the `false`
it returns goes nowhere).  The method itself returns `true` on every
non-throwing path — the element never throws synchronously here — so the
boolean result is `true` regardless of `deviceAccepts` or `srcLoaded`.
`deviceAccepts` tells whether the device accepted the async request. -/
def play (st : H5State) (startFrom : Option ℚ) (deviceAccepts : Bool) :
    H5State × PlayOutcome :=
  let st1 := match startFrom with
    | some t => { st with currentTime := t }
    | none => st
  let st2 := if deviceAccepts then { st1 with paused := false } else st1
  (st2, { returned := true, threw := false })

/-- `pause()`: pauses the element and stops the update interval. -/
def pause (st : H5State) : H5State := { st with paused := true }

/-- `seek(newTime)` (lines 281–284): clamps to `[0, audio.duration]`. -/
def seek (st : H5State) (newTime : ℚ) : H5State :=
  { st with currentTime := max 0 (min newTime st.duration) }

/-- `setLoopMode(enabled, start, end)` (lines 298–311): stores the fields
and assigns `audio.loop = enabled` unconditionally — the range is not
consulted. -/
def setLoopMode (st : H5State) (enabled : Bool) (start finish : ℚ) : H5State :=
  { st with
    loopMode := enabled, loopStart := start, loopEnd := finish,
    nativeLoop := enabled }

/-- A quiescent element: paused at 0, unit rate and volume, no loop
configured; `loaded` tells whether a source is attached, `d` is the
element's duration. -/
def mkIdle (loaded : Bool) (d : ℚ) : H5State :=
  { srcLoaded := loaded, currentTime := 0, duration := d, paused := true,
    playbackRate := 1, volume := 1, nativeLoop := false, loopMode := false,
    loopStart := 0, loopEnd := 0 }

end H5State

/-! ## SpectrogramWorkerManager (src/src/lib/worker-manager.ts)

Workers are identified by numbers; `nextId` supplies the id of the next
`new Worker(...)`.  Task promises are tracked by id: a task id sits in
`pendingTasks` from `processChunk` until `handleWorkerMessage` settles it,
at which point the settlement `(id, resolved?)` is appended to
`settledTasks`.  `availableWorkers` is the idle list (`pop` takes its last
element, matching `Array.prototype.pop`); `taskQueue` is FIFO (`shift`
takes its head). -/

structure PoolState where
  workers : List ℕ
  nextId : ℕ
  availableWorkers : List ℕ
  taskQueue : List ℕ
  pendingTasks : List ℕ
  settledTasks : List (ℕ × Bool)
  isInitialized : Bool
  deriving Repr, DecidableEq

namespace PoolState

/-- `processQueue()` (worker-manager.ts lines 137–145): if both an idle
worker and a queued task exist, shift the task, pop the worker and post
the task to it. -/
def processQueue (p : PoolState) : PoolState :=
  if p.availableWorkers = [] ∨ p.taskQueue = [] then p
  else
    { p with
      taskQueue := p.taskQueue.tail
      availableWorkers := p.availableWorkers.dropLast }

/-- Messages a worker can deliver, as in `handleWorkerMessage`
(lines 87–135): diagnostics, the readiness announcement, and per-task
completion (`chunk_complete`/generic) or error responses carrying the
task id. -/
inductive WorkerMsg where
  | logMsg
  | ready
  | taskDone (id : ℕ) (isError : Bool)
  deriving Repr, DecidableEq

/-- `handleWorkerMessage(worker, event)`: logs are dropped; `ready` marks
the pool initialized, returns the worker to the idle list and pumps the
queue; a task response for a pending id settles that task's promise
(resolve unless `type === "error"`), removes it from the pending map,
returns the worker to the idle list and pumps the queue. -/
def handleWorkerMessage (p : PoolState) (w : ℕ) (m : WorkerMsg) : PoolState :=
  match m with
  | .logMsg => p
  | .ready =>
      processQueue
        { p with availableWorkers := p.availableWorkers ++ [w], isInitialized := true }
  | .taskDone id isError =>
      if id ∈ p.pendingTasks then
        processQueue
          { p with
            pendingTasks := p.pendingTasks.erase id
            settledTasks := p.settledTasks ++ [(id, !isError)]
            availableWorkers := p.availableWorkers ++ [w] }
      else p

/-- `worker.onerror` (lines 72–81): the faulted worker is terminated and
spliced out of `workers`, and `createWorker()` pushes a freshly
constructed replacement.  Nothing else is touched: the idle list, the
task queue, the pending-task map and the settlement log all stay as they
were. -/
def workerFault (p : PoolState) (w : ℕ) : PoolState :=
  if w ∈ p.workers then
    { p with workers := (p.workers.erase w) ++ [p.nextId], nextId := p.nextId + 1 }
  else p

/-- `processChunk(...)` (lines 147–173): register the promise as pending,
then either post immediately to a popped idle worker or enqueue. -/
def processChunk (p : PoolState) (id : ℕ) : PoolState :=
  let p1 := { p with pendingTasks := p.pendingTasks ++ [id] }
  if p1.availableWorkers = [] then
    { p1 with taskQueue := p1.taskQueue ++ [id] }
  else
    { p1 with availableWorkers := p1.availableWorkers.dropLast }

end PoolState

/-- A concrete three-worker pool exercising the fault path: worker ids
0–2, worker 0 idle, task 7 in flight, task 9 queued. -/
def examplePool : PoolState :=
  { workers := [0, 1, 2], nextId := 3, availableWorkers := [0],
    taskQueue := [9], pendingTasks := [7], settledTasks := [],
    isInitialized := true }

/-! ## Chunker, batcher and stitcher
(src/src/lib/SpectrogramGraphics.tsx, first document)

`SEGMENT_DURATION = 10` seconds (line 18); `MAX_CONCURRENT =
min(4, navigator.hardwareConcurrency || 4)` (line 19) is kept abstract as
a positive batch bound. -/

def SEGMENT_DURATION : ℕ := 10

/-- `shouldChunk = monoAudioSamples.length > SEGMENT_DURATION *
samplesPerSecond` (line 147). -/
def shouldChunk (totalSamples sampleRate : ℕ) : Bool :=
  decide (SEGMENT_DURATION * sampleRate < totalSamples)

/-- `chunkSize = Math.floor(SEGMENT_DURATION * samplesPerSecond)`
(line 180); with an integral sample rate the floor is exact. -/
def chunkSize (sampleRate : ℕ) : ℕ := SEGMENT_DURATION * sampleRate

/-- The chunking loop (lines 183–185): `for (i = 0; i < len; i += k)
chunks.push(samples.slice(i, min(i + k, len)))`, phrased as take/drop
recursion. -/
def splitChunks (k : ℕ) (xs : List α) : List (List α) :=
  if hk : k = 0 then []
  else if hx : xs.length = 0 then []
  else xs.take k :: splitChunks k (xs.drop k)
termination_by xs.length
decreasing_by
  have h0 : 0 < k := Nat.pos_of_ne_zero hk
  have h1 : 0 < xs.length := Nat.pos_of_ne_zero hx
  simpa using Nat.sub_lt h1 h0

/-- The batch loop (lines 191–209): slices of at most `k` chunks are
mapped through the worker via `Promise.all` — which yields results in
input order, not completion order — and each batch's non-null results are
appended (`chunkResults.push(...batchResults.filter(Boolean))`) before
the next batch starts. -/
def batchedMap (f : α → Option β) (k : ℕ) (xs : List α) : List β :=
  if hk : k = 0 then []
  else if hx : xs.length = 0 then []
  else (xs.take k).filterMap f ++ batchedMap f k (xs.drop k)
termination_by xs.length
decreasing_by
  have h0 : 0 < k := Nat.pos_of_ne_zero hk
  have h1 : 0 < xs.length := Nat.pos_of_ne_zero hx
  simpa using Nat.sub_lt h1 h0

/-- One worker result: an image of `width × height` pixels.  `pix x y` is
the pixel at column `x`, row `y`. -/
structure ChunkImage (α : Type) where
  width : ℕ
  height : ℕ
  pix : ℕ → ℕ → α

/-- `totalWidth = chunkResults.reduce((sum, r) => sum + r.width, 0)`
(line 217). -/
def totalWidth (rs : List (ChunkImage α)) : ℕ := (rs.map (·.width)).sum

/-- Cumulative x-offset of chunk `i`: the sum of the widths of the chunks
before it (the running `xOffset` of the stitch loops at lines 238–265 and
296–315). -/
def offsetBefore (rs : List (ChunkImage α)) (i : ℕ) : ℕ :=
  ((rs.take i).map (·.width)).sum

/-- Pixel lookup of the stitched canvas: the loop draws chunk after chunk
at the running `xOffset`, so column `x` belongs to the first chunk whose
width span covers it; columns beyond every chunk keep the background. -/
def stitchPix (bg : α) : List (ChunkImage α) → ℕ → ℕ → α
  | [], _, _ => bg
  | r :: rs, x, y => if x < r.width then r.pix x y else stitchPix bg rs (x - r.width) y

/-- The stitched composite (lines 216–265, and identically the canvas
fallback at lines 286–315): a `(totalWidth, height)` canvas with
`height = chunkResults[0].height`, each chunk drawn at its cumulative
x-offset in array order. -/
def stitch (bg : α) (rs : List (ChunkImage α)) : ChunkImage α :=
  { width := totalWidth rs
    height := ((rs.head?.map (·.height)).getD 0)
    pix := stitchPix bg rs }

/-! ## ZoomProvider viewport state machine (src/unnamed/part_010) -/

/-- The six navigation modes. -/
inductive Mode where
  | page | stop | loop | cont | scroll | scrub
  deriving Repr, DecidableEq

/-- The viewport window `[startTime, endTime]`. -/
structure Window where
  startTime : ℚ
  endTime : ℚ
  deriving Repr, DecidableEq

/-- `zoomedDuration = endTime - startTime` (line 60). -/
def Window.width (w : Window) : ℚ := w.endTime - w.startTime

/-- Effect of one run of the time-update handler: the new window, an
optional `setCurrentTime` (the position the transport is sent to), and
whether `pause()` was called. -/
structure TickResult where
  win : Window
  seekTo : Option ℚ
  didPause : Bool
  deriving Repr, DecidableEq

/-- The time-update effect of `ZoomProvider` (part_010 lines 85–176),
one mode branch per policy, with the literal constants of the source:
`0.1` boundary tolerance for `stop`/`page`, a `25%` buffer zone for
`scroll`, and the clamped centering of `scrub`.  `d` is the audio
duration and `t` the reported `currentTime`. -/
def timeUpdate (mode : Mode) (d : ℚ) (w : Window) (t : ℚ) : TickResult :=
  let wd := w.width
  match mode with
  | .stop =>
      if w.endTime ≤ t ∧ t ≤ w.endTime + 1/10 then
        { win := w, seekTo := some w.startTime, didPause := true }
      else if w.endTime + 1/10 < t then
        { win := ⟨w.endTime, w.endTime + wd⟩, seekTo := none, didPause := false }
      else if t < w.startTime - 1/10 then
        { win := ⟨w.startTime - wd, w.startTime⟩, seekTo := none, didPause := false }
      else
        { win := w, seekTo := none, didPause := false }
  | .loop =>
      if w.endTime ≤ t ∨ t < w.startTime then
        { win := w, seekTo := some w.startTime, didPause := false }
      else
        { win := w, seekTo := none, didPause := false }
  | .page =>
      if w.endTime ≤ t ∧ t ≤ w.endTime + 1/10 then
        let ne := min d (w.endTime + wd)
        { win := ⟨max 0 (ne - wd), ne⟩, seekTo := none, didPause := false }
      else if w.endTime + 1/10 < t then
        { win := ⟨w.endTime, w.endTime + wd⟩, seekTo := none, didPause := false }
      else if t < w.startTime - 1/10 then
        { win := ⟨w.startTime - wd, w.startTime⟩, seekTo := none, didPause := false }
      else
        { win := w, seekTo := none, didPause := false }
  | .scroll =>
      let bw := wd * (1/4)
      if w.endTime - bw < t then
        let off := min bw (t - (w.endTime - bw))
        { win := ⟨w.startTime + off, w.endTime + off⟩, seekTo := none, didPause := false }
      else if t < w.startTime + bw then
        let off := min bw ((w.startTime + bw) - t)
        { win := ⟨max 0 (w.startTime - off), w.endTime - off⟩
          seekTo := none, didPause := false }
      else
        { win := w, seekTo := none, didPause := false }
  | .scrub =>
      let half := wd / 2
      let ns0 := max 0 (t - half)
      let ne0 := min d (t + half)
      let ne1 := if ns0 ≤ 0 then min d wd else ne0
      let p : ℚ × ℚ := if d ≤ ne1 then (max 0 (d - wd), d) else (ns0, ne1)
      { win := ⟨p.1, p.2⟩, seekTo := none, didPause := false }
  | .cont =>
      { win := w, seekTo := none, didPause := false }

/-- `nextPage()` (part_010 lines 233–239). -/
def nextPage (d : ℚ) (w : Window) : Window :=
  let ne := min d (w.endTime + w.width)
  ⟨max 0 (ne - w.width), ne⟩

/-- `previousPage()` (part_010 lines 241–247). -/
def previousPage (d : ℚ) (w : Window) : Window :=
  let ns := max 0 (w.startTime - w.width)
  ⟨ns, min d (ns + w.width)⟩

/-- `zoomIn()` (part_010 lines 178–208): removes `20%` of the current
width from each side, applies only when the shrunken width stays at or
above the `0.1` floor, and moves the playhead — to the position with its
old relative offset — only when it fell outside the shrunken window.
Returns the new window and the (possibly adjusted) playhead. -/
def zoomIn (d : ℚ) (w : Window) (t : ℚ) : Window × ℚ :=
  let wd := w.width
  let za := wd * (1/5)
  let rel := (t - w.startTime) / wd
  let ns := max 0 (w.startTime + za)
  let ne := min d (w.endTime - za)
  if 1/10 ≤ ne - ns then
    let t' := if t < ns ∨ ne < t then ns + (ne - ns) * rel else t
    (⟨ns, ne⟩, t')
  else (w, t)

/-- `zoomOut()` (part_010 lines 210–231): adds `33%` of the current width
to each side, clamped to `[0, duration]`; the playhead is untouched. -/
def zoomOut (d : ℚ) (w : Window) : Window :=
  let za := w.width * (1/3)
  ⟨max 0 (w.startTime - za), min d (w.endTime + za)⟩

/-- `setCenterTime(centerTime)` (part_010 lines 62–82). -/
def setCenterTime (d : ℚ) (w : Window) (c : ℚ) : Window :=
  let half := w.width / 2
  let ns0 := max 0 (c - half)
  let ne0 := min d (c + half)
  let ne1 := if ns0 ≤ 0 then min d w.width else ne0
  let ns1 := if d ≤ ne1 then max 0 (d - w.width) else ns0
  ⟨ns1, ne1⟩

/-! ## Theorems: playback engines -/

/-- Helper: `play` on an engine with context, buffer and gain present. -/
theorem WAState.play_eq (st : SpecPlayer.WAState) (now startFrom : ℚ)
    (hctx : st.hasContext = true) (hbuf : st.hasBuffer = true)
    (hgain : st.hasGain = true) :
    st.play now startFrom =
      ({ st with
          hasSource := true,
          sourceLoop := st.loopMode,
          pausedAt := (if st.bufferDuration ≤ max 0 startFrom then 0 else max 0 startFrom),
          startTime := now,
          isPlaying := true }, true) := by
  simp [SpecPlayer.WAState.play, hctx, hbuf, hgain]

/-- Helper: `play` on an engine with no decoded buffer. -/
theorem WAState.play_fail (st : SpecPlayer.WAState) (now startFrom : ℚ)
    (hbuf : st.hasBuffer = false) :
    st.play now startFrom = (st, false) := by
  simp [SpecPlayer.WAState.play, hbuf]

/-- C1 (amended): for the buffer-graph backend, `getCurrentTime()` equals
`pausedAt + (deviceNow - startTime) * playbackRate` while playing and is
frozen at `pausedAt` while paused; `play(t0)` re-anchors both anchor
values (so for a constant rate, after a device delay of `D` the reported
time is exactly `t0 + D * rate`) and `pause` folds the scaled elapsed
time into the frozen position; but `setPlaybackRate` re-anchors neither
value, so after a mid-play rate change the new rate is retroactively
applied to the whole interval since the last anchor. -/
theorem webaudio_clock_amended (st : SpecPlayer.WAState) (now r t0 d0 D : ℚ)
    (hctx : st.hasContext = true) (hbuf : st.hasBuffer = true)
    (hgain : st.hasGain = true) (ht0 : 0 ≤ t0) (htd : t0 < st.bufferDuration) :
    (st.isPlaying = true →
      st.getCurrentTime now = st.pausedAt + (now - st.startTime) * st.playbackRate) ∧
    (st.isPlaying = false → st.getCurrentTime now = st.pausedAt) ∧
    ((st.play d0 t0).2 = true ∧ (st.play d0 t0).1.pausedAt = t0 ∧
      (st.play d0 t0).1.startTime = d0 ∧
      (st.play d0 t0).1.getCurrentTime (d0 + D) = t0 + D * st.playbackRate) ∧
    (st.isPlaying = true →
      (st.pause now).pausedAt = st.getCurrentTime now ∧
      ∀ now', (st.pause now).getCurrentTime now' = (st.pause now).pausedAt) ∧
    ((st.setPlaybackRate r).pausedAt = st.pausedAt ∧
      (st.setPlaybackRate r).startTime = st.startTime ∧
      (st.setPlaybackRate r).isPlaying = st.isPlaying ∧
      (st.isPlaying = true →
        (st.setPlaybackRate r).getCurrentTime now
          = st.pausedAt + (now - st.startTime) * r)) := by
  have hmax : max (0 : ℚ) t0 = t0 := max_eq_right ht0
  have hnotle : ¬ st.bufferDuration ≤ max 0 t0 := by rw [hmax]; exact not_le.mpr htd
  refine ⟨?_, ?_, ?_, ?_, ?_⟩
  · intro hp
    simp [SpecPlayer.WAState.getCurrentTime, hctx, hp]
  · intro hp
    simp [SpecPlayer.WAState.getCurrentTime, hp]
  · rw [WAState.play_eq st d0 t0 hctx hbuf hgain]
    refine ⟨rfl, ?_, rfl, ?_⟩
    · simp [ht0, htd.not_le]
    · simp [SpecPlayer.WAState.getCurrentTime, hctx, ht0, htd.not_le]
  · intro hp
    constructor
    · simp [SpecPlayer.WAState.pause, SpecPlayer.WAState.getCurrentTime, hp, hctx]
    · intro now'
      simp [SpecPlayer.WAState.pause, SpecPlayer.WAState.getCurrentTime, hp, hctx]
  · refine ⟨rfl, rfl, rfl, ?_⟩
    intro hp
    simp [SpecPlayer.WAState.setPlaybackRate, SpecPlayer.WAState.getCurrentTime, hctx, hp]

/-- Witness for `webaudio_clock_amended` at a concrete ready engine. -/
theorem webaudio_clock_amended_witness :
    ((SpecPlayer.WAState.ready 10).isPlaying = true →
      (SpecPlayer.WAState.ready 10).getCurrentTime 5
        = (SpecPlayer.WAState.ready 10).pausedAt
          + (5 - (SpecPlayer.WAState.ready 10).startTime)
            * (SpecPlayer.WAState.ready 10).playbackRate) ∧
    ((SpecPlayer.WAState.ready 10).isPlaying = false →
      (SpecPlayer.WAState.ready 10).getCurrentTime 5
        = (SpecPlayer.WAState.ready 10).pausedAt) ∧
    (((SpecPlayer.WAState.ready 10).play 3 1).2 = true ∧
      ((SpecPlayer.WAState.ready 10).play 3 1).1.pausedAt = 1 ∧
      ((SpecPlayer.WAState.ready 10).play 3 1).1.startTime = 3 ∧
      ((SpecPlayer.WAState.ready 10).play 3 1).1.getCurrentTime (3 + 4)
        = 1 + 4 * (SpecPlayer.WAState.ready 10).playbackRate) ∧
    ((SpecPlayer.WAState.ready 10).isPlaying = true →
      ((SpecPlayer.WAState.ready 10).pause 5).pausedAt
        = (SpecPlayer.WAState.ready 10).getCurrentTime 5 ∧
      ∀ now', ((SpecPlayer.WAState.ready 10).pause 5).getCurrentTime now'
        = ((SpecPlayer.WAState.ready 10).pause 5).pausedAt) ∧
    (((SpecPlayer.WAState.ready 10).setPlaybackRate 2).pausedAt
        = (SpecPlayer.WAState.ready 10).pausedAt ∧
      ((SpecPlayer.WAState.ready 10).setPlaybackRate 2).startTime
        = (SpecPlayer.WAState.ready 10).startTime ∧
      ((SpecPlayer.WAState.ready 10).setPlaybackRate 2).isPlaying
        = (SpecPlayer.WAState.ready 10).isPlaying ∧
      ((SpecPlayer.WAState.ready 10).isPlaying = true →
        ((SpecPlayer.WAState.ready 10).setPlaybackRate 2).getCurrentTime 5
          = (SpecPlayer.WAState.ready 10).pausedAt
            + (5 - (SpecPlayer.WAState.ready 10).startTime) * 2)) :=
  webaudio_clock_amended (SpecPlayer.WAState.ready 10) 5 2 1 3 4
    (by decide) (by decide) (by decide) (by norm_num)
    (by norm_num [SpecPlayer.WAState.ready])

/-- C1 counterexample: a rate change mid-play does not re-anchor the
clock.  Play from position 0 at device time 0 with rate 1, change the
rate to 2 at device time 1, read the clock at device time 2: the code
reports `0 + (2 - 0) * 2 = 4`, whereas re-anchoring on the rate change
would give `0 + 1*1 + 1*2 = 3`; the discrepancy (1 s) far exceeds the
20 ms tolerance. -/
theorem webaudio_rate_change_no_reanchor_cex :
    (((SpecPlayer.WAState.ready 10).play 0 0).1.setPlaybackRate 2).pausedAt
        = ((SpecPlayer.WAState.ready 10).play 0 0).1.pausedAt ∧
    (((SpecPlayer.WAState.ready 10).play 0 0).1.setPlaybackRate 2).startTime
        = ((SpecPlayer.WAState.ready 10).play 0 0).1.startTime ∧
    (((SpecPlayer.WAState.ready 10).play 0 0).1.setPlaybackRate 2).getCurrentTime 2 = 4 ∧
    ((0 : ℚ) + 1 * 1 + 1 * 2 = 3) ∧
    ¬ |(((SpecPlayer.WAState.ready 10).play 0 0).1.setPlaybackRate 2).getCurrentTime 2
        - ((0 : ℚ) + 1 * 1 + 1 * 2)| ≤ 1/50 := by
  have h4 : (((SpecPlayer.WAState.ready 10).play 0 0).1.setPlaybackRate 2).getCurrentTime 2
      = 4 := by
    norm_num [SpecPlayer.WAState.ready, SpecPlayer.WAState.play,
      SpecPlayer.WAState.setPlaybackRate, SpecPlayer.WAState.getCurrentTime]
  refine ⟨rfl, rfl, h4, by norm_num, ?_⟩
  rw [h4]
  norm_num

/-- C10 (confirmed): with a buffer loaded, `play(startFrom)` for a start
position at or beyond the buffer's duration succeeds: the position is
reset to 0, playback starts (from the beginning, anchored at the call's
device time) and the call returns `true`. -/
theorem webaudio_play_beyond_duration (st : SpecPlayer.WAState) (now startFrom : ℚ)
    (hctx : st.hasContext = true) (hbuf : st.hasBuffer = true)
    (hgain : st.hasGain = true) (hbeyond : st.bufferDuration ≤ startFrom) :
    (st.play now startFrom).2 = true ∧
    (st.play now startFrom).1.pausedAt = 0 ∧
    (st.play now startFrom).1.isPlaying = true ∧
    (st.play now startFrom).1.startTime = now := by
  have hle : st.bufferDuration ≤ max 0 startFrom :=
    le_trans hbeyond (le_max_right 0 startFrom)
  rw [WAState.play_eq st now startFrom hctx hbuf hgain]
  exact ⟨rfl, by simp [hle], rfl, rfl⟩

/-- Witness for `webaudio_play_beyond_duration`: a 10 s buffer played
from 12 s. -/
theorem webaudio_play_beyond_duration_witness :
    ((SpecPlayer.WAState.ready 10).play 7 12).2 = true ∧
    ((SpecPlayer.WAState.ready 10).play 7 12).1.pausedAt = 0 ∧
    ((SpecPlayer.WAState.ready 10).play 7 12).1.isPlaying = true ∧
    ((SpecPlayer.WAState.ready 10).play 7 12).1.startTime = 7 :=
  webaudio_play_beyond_duration (SpecPlayer.WAState.ready 10) 7 12
    (by decide) (by decide) (by decide) (by norm_num [SpecPlayer.WAState.ready])

/-- C8 (amended): the buffer-graph backend's `play` returns `false` (and
leaves the state untouched) when no decoded buffer is loaded, and neither
backend throws across the interface; but the HTML5 backend's `play`
attaches a `.catch` that only logs the device's rejection and returns
`true` on every path — a missing resource or a rejected device request is
not reported as a boolean failure. -/
theorem play_failure_reporting_amended (st : SpecPlayer.WAState)
    (h5 : SpecPlayer.H5State) (now t : ℚ) (startFrom : Option ℚ) (acc : Bool)
    (hbuf : st.hasBuffer = false) :
    (st.play now t).2 = false ∧ (st.play now t).1 = st ∧
    (h5.play startFrom acc).2.threw = false ∧
    (h5.play startFrom acc).2.returned = true := by
  rw [WAState.play_fail st now t hbuf]
  exact ⟨rfl, rfl, rfl, rfl⟩

/-- Witness for `play_failure_reporting_amended`: a buffer-less WebAudio
engine and an HTML5 element whose device rejects the request. -/
theorem play_failure_reporting_amended_witness :
    (({ SpecPlayer.WAState.ready 10 with hasBuffer := false }).play 0 3).2 = false ∧
    (({ SpecPlayer.WAState.ready 10 with hasBuffer := false }).play 0 3).1
      = { SpecPlayer.WAState.ready 10 with hasBuffer := false } ∧
    (((SpecPlayer.H5State.mkIdle false 0)).play (some 2) false).2.threw
      = false ∧
    (((SpecPlayer.H5State.mkIdle false 0)).play (some 2) false).2.returned
      = true :=
  play_failure_reporting_amended
    { SpecPlayer.WAState.ready 10 with hasBuffer := false }
    (SpecPlayer.H5State.mkIdle false 0) 0 3 (some 2) false (by decide)

/-- C8 counterexample: the HTML5 backend with no audio resource loaded
(and a device that rejects the request) still returns `true` from
`play` — the claimed `false` result is never produced. -/
theorem html5_play_returns_true_cex :
    ((SpecPlayer.H5State.mkIdle false 0)).play none false
      = ({ srcLoaded := false, currentTime := 0, duration := 0, paused := true,
           playbackRate := 1, volume := 1, nativeLoop := false, loopMode := false,
           loopStart := 0, loopEnd := 0 : SpecPlayer.H5State },
         { returned := true, threw := false }) ∧
    ¬ (((SpecPlayer.H5State.mkIdle false 0)).play none false).2.returned
        = false := by
  exact ⟨rfl, by decide⟩

/-- C9 (amended): both backends copy `enabled` straight onto the native
loop flag, ignoring the `start`/`end` range entirely — the flag's value
is the same for any two ranges, so it is also set for enabled ranges that
are proper sub-ranges of the file; restricting native looping is left to
the orchestrator, not enforced in the engines. -/
theorem native_loop_flag_amended (st : SpecPlayer.WAState)
    (h5 : SpecPlayer.H5State) (enabled : Bool) (s e s' e' : ℚ)
    (hsrc : st.hasSource = true) :
    (st.setLoopMode enabled s e).sourceLoop = enabled ∧
    (st.setLoopMode enabled s e).loopMode = enabled ∧
    (h5.setLoopMode enabled s e).nativeLoop = enabled ∧
    (st.setLoopMode enabled s e).sourceLoop = (st.setLoopMode enabled s' e').sourceLoop ∧
    (h5.setLoopMode enabled s e).nativeLoop = (h5.setLoopMode enabled s' e').nativeLoop := by
  refine ⟨?_, rfl, rfl, ?_, rfl⟩
  · simp [SpecPlayer.WAState.setLoopMode, hsrc]
  · simp [SpecPlayer.WAState.setLoopMode]

/-- Witness for `native_loop_flag_amended` on a playing engine and the
sub-range `[1, 2]` of a 10 s file. -/
theorem native_loop_flag_amended_witness :
    (({ SpecPlayer.WAState.ready 10 with hasSource := true }).setLoopMode
        true 1 2).sourceLoop = true ∧
    (({ SpecPlayer.WAState.ready 10 with hasSource := true }).setLoopMode
        true 1 2).loopMode = true ∧
    (((SpecPlayer.H5State.mkIdle true 10)).setLoopMode
        true 1 2).nativeLoop = true ∧
    (({ SpecPlayer.WAState.ready 10 with hasSource := true }).setLoopMode
        true 1 2).sourceLoop
      = (({ SpecPlayer.WAState.ready 10 with hasSource := true }).setLoopMode
        true 0 10).sourceLoop ∧
    (((SpecPlayer.H5State.mkIdle true 10)).setLoopMode
        true 1 2).nativeLoop
      = (((SpecPlayer.H5State.mkIdle true 10)).setLoopMode
        true 0 10).nativeLoop :=
  native_loop_flag_amended { SpecPlayer.WAState.ready 10 with hasSource := true }
    (SpecPlayer.H5State.mkIdle true 10) true 1 2 0 10 (by decide)

/-- C9 counterexample: `setLoopMode(true, 1, 2)` on engines whose file
lasts 10 s — the range `[1, 2]` is a proper sub-range, yet both native
loop flags end up set. -/
theorem native_loop_subrange_cex :
    ((0 : ℚ) < 1 ∧ (2 : ℚ) < 10) ∧
    (({ SpecPlayer.WAState.ready 10 with hasSource := true }).setLoopMode
        true 1 2).sourceLoop = true ∧
    (((SpecPlayer.H5State.mkIdle true 10)).setLoopMode
        true 1 2).nativeLoop = true := by
  exact ⟨⟨by norm_num, by norm_num⟩, by decide, rfl⟩

/-! ## Theorems: worker pool -/

/-- C7 (confirmed): a worker runtime fault terminates and removes the
faulted worker and pushes a freshly constructed replacement (one never
seen in the pool before), keeping the pool size; the idle list, the FIFO
queue, the pending-task map and the settlement log are untouched — so
every task whose promise was pending stays pending (never resolved nor
rejected) and nothing is re-enqueued. -/
theorem worker_fault_replaces_and_orphans (p : SpecPlayer.PoolState) (w : ℕ)
    (hw : w ∈ p.workers) (hnodup : p.workers.Nodup)
    (hfresh : ∀ i ∈ p.workers, i < p.nextId) :
    w ∉ (p.workerFault w).workers ∧
    p.nextId ∈ (p.workerFault w).workers ∧
    p.nextId ∉ p.workers ∧
    (p.workerFault w).workers.length = p.workers.length ∧
    (p.workerFault w).pendingTasks = p.pendingTasks ∧
    (p.workerFault w).settledTasks = p.settledTasks ∧
    (p.workerFault w).taskQueue = p.taskQueue ∧
    (p.workerFault w).availableWorkers = p.availableWorkers ∧
    ∀ id ∈ p.pendingTasks, id ∈ (p.workerFault w).pendingTasks := by
  have hwlt : w < p.nextId := hfresh w hw
  have hfrnot : p.nextId ∉ p.workers := fun hmem => lt_irrefl _ (hfresh _ hmem)
  have hrw : p.workerFault w =
      { p with workers := (p.workers.erase w) ++ [p.nextId], nextId := p.nextId + 1 } := by
    simp [SpecPlayer.PoolState.workerFault, hw]
  rw [hrw]
  refine ⟨?_, ?_, hfrnot, ?_, rfl, rfl, rfl, rfl, fun id h => h⟩
  · simp only [List.mem_append, List.mem_singleton]
    rintro (hmem | hne)
    · exact hnodup.not_mem_erase hmem
    · exact absurd hne (Nat.ne_of_lt hwlt)
  · simp
  · show ((p.workers.erase w) ++ [p.nextId]).length = p.workers.length
    rw [List.length_append, List.length_erase_of_mem hw, List.length_singleton]
    have : 0 < p.workers.length := List.length_pos.mpr (List.ne_nil_of_mem hw)
    omega

/-- Witness for `worker_fault_replaces_and_orphans`: a three-worker pool
with worker 1 faulting while task 7 is in flight and task 9 queued. -/
theorem worker_fault_replaces_and_orphans_witness :
    (1 ∉ (SpecPlayer.examplePool.workerFault 1).workers) ∧
    (3 ∈ (SpecPlayer.examplePool.workerFault 1).workers) ∧
    (3 ∉ SpecPlayer.examplePool.workers) ∧
    ((SpecPlayer.examplePool.workerFault 1).workers.length
      = SpecPlayer.examplePool.workers.length) ∧
    ((SpecPlayer.examplePool.workerFault 1).pendingTasks
      = SpecPlayer.examplePool.pendingTasks) ∧
    ((SpecPlayer.examplePool.workerFault 1).settledTasks
      = SpecPlayer.examplePool.settledTasks) ∧
    ((SpecPlayer.examplePool.workerFault 1).taskQueue
      = SpecPlayer.examplePool.taskQueue) ∧
    ((SpecPlayer.examplePool.workerFault 1).availableWorkers
      = SpecPlayer.examplePool.availableWorkers) ∧
    (∀ id ∈ SpecPlayer.examplePool.pendingTasks,
      id ∈ (SpecPlayer.examplePool.workerFault 1).pendingTasks) :=
  worker_fault_replaces_and_orphans SpecPlayer.examplePool 1
    (by decide) (by decide) (by decide)

/-! ## Theorems: viewport loop re-entry -/

/-- C5 (confirmed): in loop mode, a time update with
`currentTime >= endTime` or `currentTime < startTime` makes the handler
send the transport straight back to `startTime` (so the next reported
position is `startTime`), pauses nothing, and leaves both window bounds
exactly as they were. -/
theorem loop_mode_reentry (d : ℚ) (w : SpecPlayer.Window) (t : ℚ)
    (h : w.endTime ≤ t ∨ t < w.startTime) :
    (SpecPlayer.timeUpdate SpecPlayer.Mode.loop d w t).win = w ∧
    (SpecPlayer.timeUpdate SpecPlayer.Mode.loop d w t).seekTo = some w.startTime ∧
    (SpecPlayer.timeUpdate SpecPlayer.Mode.loop d w t).didPause = false := by
  have h' : SpecPlayer.timeUpdate SpecPlayer.Mode.loop d w t =
      { win := w, seekTo := some w.startTime, didPause := false } := by
    show (if w.endTime ≤ t ∨ t < w.startTime then
        ({ win := w, seekTo := some w.startTime, didPause := false } :
          SpecPlayer.TickResult)
      else { win := w, seekTo := none, didPause := false }) = _
    rw [if_pos h]
  rw [h']
  exact ⟨rfl, rfl, rfl⟩

/-- Witness for `loop_mode_reentry`: the spec's own scenario — loop
window `[2, 5]`, update reaching `5.02`: the transport is sent back to
`2` and the window stays `[2, 5]`. -/
theorem loop_mode_reentry_witness :
    (SpecPlayer.timeUpdate SpecPlayer.Mode.loop 10 ⟨2, 5⟩ (251/50)).win = ⟨2, 5⟩ ∧
    (SpecPlayer.timeUpdate SpecPlayer.Mode.loop 10 ⟨2, 5⟩ (251/50)).seekTo
      = some (2 : ℚ) ∧
    (SpecPlayer.timeUpdate SpecPlayer.Mode.loop 10 ⟨2, 5⟩ (251/50)).didPause = false :=
  loop_mode_reentry 10 ⟨2, 5⟩ (251/50) (Or.inl (by norm_num))

/-! ## Theorems: chunker, batcher, stitcher -/

/-- Helper: the chunker yields nothing on an empty buffer. -/
theorem splitChunks_eq_nil {α : Type} (k : ℕ) (xs : List α) (hx : xs.length = 0) :
    splitChunks k xs = [] := by
  rw [splitChunks]
  simp [hx]

/-- Helper: one step of the chunking loop. -/
theorem splitChunks_cons {α : Type} (k : ℕ) (hk : k ≠ 0) (xs : List α)
    (hx : xs.length ≠ 0) :
    splitChunks k xs = xs.take k :: splitChunks k (xs.drop k) := by
  rw [splitChunks, dif_neg hk, dif_neg hx]

/-- Helper: concatenating the chunks restores the buffer. -/
theorem splitChunks_flatten {α : Type} (k : ℕ) (hk : k ≠ 0) :
    ∀ xs : List α, (splitChunks k xs).flatten = xs
  | xs => by
    by_cases hx : xs.length = 0
    · rw [splitChunks_eq_nil k xs hx]
      exact (List.length_eq_zero.mp hx).symm
    · rw [splitChunks_cons k hk xs hx, List.flatten_cons,
        splitChunks_flatten k hk (xs.drop k), List.take_append_drop]
termination_by xs => xs.length
decreasing_by
  have h1 : 0 < xs.length := Nat.pos_of_ne_zero hx
  have h0 : 0 < k := Nat.pos_of_ne_zero hk
  simpa using Nat.sub_lt h1 h0

/-- Helper: the chunk count is the ceiling `⌈n / k⌉ = (n + k - 1) / k`. -/
theorem splitChunks_length {α : Type} (k : ℕ) (hk : k ≠ 0) :
    ∀ xs : List α, (splitChunks k xs).length = (xs.length + k - 1) / k
  | xs => by
    by_cases hx : xs.length = 0
    · rw [splitChunks_eq_nil k xs hx, hx]
      symm
      simp only [List.length_nil]
      exact Nat.div_eq_of_lt (by omega)
    · rw [splitChunks_cons k hk xs hx, List.length_cons,
        splitChunks_length k hk (xs.drop k), List.length_drop]
      rcases le_or_lt xs.length k with hle | hlt
      · have h1 : xs.length - k = 0 := by omega
        rw [h1]
        have h2 : (0 + k - 1) / k = 0 := Nat.div_eq_of_lt (by omega)
        rw [h2]
        have hn : xs.length + k - 1 = (xs.length - 1) + k := by omega
        rw [hn, Nat.add_div_right _ (Nat.pos_of_ne_zero hk)]
        have h3 : (xs.length - 1) / k = 0 := Nat.div_eq_of_lt (by omega)
        omega
      · have e1 : xs.length - k + k - 1 = xs.length - 1 - k + k := by omega
        have e2 : xs.length + k - 1 = (xs.length - 1) + k := by omega
        have e3 : xs.length - 1 - k + k = xs.length - 1 := by omega
        rw [e1, e3, e2, Nat.add_div_right _ (Nat.pos_of_ne_zero hk)]
termination_by xs => xs.length
decreasing_by
  have h1 : 0 < xs.length := Nat.pos_of_ne_zero hx
  have h0 : 0 < k := Nat.pos_of_ne_zero hk
  simpa using Nat.sub_lt h1 h0

/-- Helper: every chunk is nonempty and holds at most `k` samples. -/
theorem splitChunks_mem {α : Type} (k : ℕ) (hk : k ≠ 0) :
    ∀ xs : List α, ∀ c ∈ splitChunks k xs, c.length ≤ k ∧ c ≠ []
  | xs => by
    by_cases hx : xs.length = 0
    · rw [splitChunks_eq_nil k xs hx]
      intro c hc
      simp at hc
    · rw [splitChunks_cons k hk xs hx]
      intro c hc
      rcases List.mem_cons.mp hc with rfl | hmem
      · refine ⟨by simp, ?_⟩
        have : 0 < (xs.take k).length := by
          simp only [List.length_take]
          omega
        exact List.length_pos.mp this
      · exact splitChunks_mem k hk (xs.drop k) c hmem
termination_by xs => xs.length
decreasing_by
  have h1 : 0 < xs.length := Nat.pos_of_ne_zero hx
  have h0 : 0 < k := Nat.pos_of_ne_zero hk
  simpa using Nat.sub_lt h1 h0

/-- Helper: every chunk but the last holds exactly `k` samples. -/
theorem splitChunks_getD {α : Type} (k : ℕ) (hk : k ≠ 0) :
    ∀ (xs : List α) (i : ℕ), i + 1 < (splitChunks k xs).length →
      ((splitChunks k xs).getD i []).length = k
  | xs, i => by
    by_cases hx : xs.length = 0
    · rw [splitChunks_eq_nil k xs hx]
      intro h
      simp at h
    · rw [splitChunks_cons k hk xs hx]
      cases i with
      | zero =>
        intro h
        have hrest : (splitChunks k (xs.drop k)).length ≠ 0 := by
          simp only [List.length_cons] at h
          omega
        have hd : (xs.drop k).length ≠ 0 := by
          intro h0
          rw [splitChunks_eq_nil k _ h0] at hrest
          simp at hrest
        rw [List.length_drop] at hd
        simp only [List.getD_cons_zero, List.length_take]
        omega
      | succ j =>
        intro h
        simp only [List.getD_cons_succ]
        apply splitChunks_getD k hk (xs.drop k) j
        simp only [List.length_cons] at h
        omega
termination_by xs => xs.length
decreasing_by
  have h1 : 0 < xs.length := Nat.pos_of_ne_zero hx
  have h0 : 0 < k := Nat.pos_of_ne_zero hk
  simpa using Nat.sub_lt h1 h0

/-- Helper: one step of the batch loop. -/
theorem batchedMap_cons {α β : Type} (f : α → Option β) (k : ℕ) (hk : k ≠ 0)
    (xs : List α) (hx : xs.length ≠ 0) :
    batchedMap f k xs = (xs.take k).filterMap f ++ batchedMap f k (xs.drop k) := by
  rw [batchedMap, dif_neg hk, dif_neg hx]

/-- Helper: batch-wise processing with in-order batches equals processing
the whole list in order — completion order never enters the result. -/
theorem batchedMap_eq_filterMap {α β : Type} (f : α → Option β) (k : ℕ) (hk : k ≠ 0) :
    ∀ xs : List α, batchedMap f k xs = xs.filterMap f
  | xs => by
    by_cases hx : xs.length = 0
    · have hnil : xs = [] := List.length_eq_zero.mp hx
      subst hnil
      rw [batchedMap]
      simp
    · rw [batchedMap_cons f k hk xs hx, batchedMap_eq_filterMap f k hk (xs.drop k),
        ← List.filterMap_append, List.take_append_drop]
termination_by xs => xs.length
decreasing_by
  have h1 : 0 < xs.length := Nat.pos_of_ne_zero hx
  have h0 : 0 < k := Nat.pos_of_ne_zero hk
  simpa using Nat.sub_lt h1 h0

/-- Helper: the stitched canvas maps the column block of chunk `i`
(cumulative offset plus an in-chunk column) to that chunk's pixels. -/
theorem stitchPix_offset {α : Type} (bg : α) :
    ∀ (rs : List (ChunkImage α)) (i : ℕ) (hi : i < rs.length) (u y : ℕ),
      u < (rs.get ⟨i, hi⟩).width →
      stitchPix bg rs (offsetBefore rs i + u) y = (rs.get ⟨i, hi⟩).pix u y
  | [], i, hi => by simp at hi
  | r :: rs, 0, _ => by
    intro u y hu
    simp only [List.get] at hu ⊢
    have hoff : offsetBefore (r :: rs) 0 = 0 := by simp [offsetBefore]
    rw [hoff, Nat.zero_add]
    simp only [stitchPix]
    rw [if_pos hu]
  | r :: rs, i + 1, hi => by
    intro u y hu
    have hoff : offsetBefore (r :: rs) (i + 1) = r.width + offsetBefore rs i := by
      simp [offsetBefore, List.take_succ_cons]
    rw [hoff]
    simp only [stitchPix]
    rw [if_neg (by omega)]
    have harith : r.width + offsetBefore rs i + u - r.width = offsetBefore rs i + u := by
      omega
    rw [harith]
    exact stitchPix_offset bg rs i (Nat.lt_of_succ_lt_succ hi) u y hu

/-- C2 (confirmed): stitching `N` equal-height chunk results produces a
composite of width `Σ wi` and height `h`, with chunk `i`'s pixels placed
at x-offset `w1 + … + w(i-1)`; and because each batch's results are
collected by input position (`Promise.all`) and batches run in order, the
stitched list is the original segment order — batch-wise processing of
the segments equals processing them sequentially, independent of
completion order. -/
theorem chunk_stitching (α γ : Type) (bg : α) (rs : List (ChunkImage α)) (h : ℕ)
    (hne : rs ≠ []) (hh : ∀ r ∈ rs, r.height = h) :
    (stitch bg rs).width = (rs.map (·.width)).sum ∧
    (stitch bg rs).height = h ∧
    (∀ (i : ℕ) (hi : i < rs.length) (u y : ℕ), u < (rs.get ⟨i, hi⟩).width →
      (stitch bg rs).pix (offsetBefore rs i + u) y = (rs.get ⟨i, hi⟩).pix u y) ∧
    (∀ (f : γ → Option (ChunkImage α)) (k : ℕ), k ≠ 0 → ∀ cs : List γ,
      batchedMap f k cs = cs.filterMap f) := by
  refine ⟨rfl, ?_, ?_, ?_⟩
  · match rs, hne with
    | r :: rs', _ =>
      have : r.height = h := hh r (List.mem_cons_self r rs')
      simp [stitch, this]
  · intro i hi u y hu
    exact stitchPix_offset bg rs i hi u y hu
  · intro f k hk cs
    exact batchedMap_eq_filterMap f k hk cs

/-- Witness for `chunk_stitching`: three chunks of widths 100, 100, 40
and height 128 (the spec's own example: the composite is 240 × 128). -/
theorem chunk_stitching_witness :
    (stitch (0 : ℕ)
        [⟨100, 128, fun _ _ => 1⟩, ⟨100, 128, fun _ _ => 2⟩, ⟨40, 128, fun _ _ => 3⟩]).width
      = (([⟨100, 128, fun _ _ => 1⟩, ⟨100, 128, fun _ _ => 2⟩,
          ⟨40, 128, fun _ _ => 3⟩] : List (ChunkImage ℕ)).map (·.width)).sum ∧
    (stitch (0 : ℕ)
        [⟨100, 128, fun _ _ => 1⟩, ⟨100, 128, fun _ _ => 2⟩, ⟨40, 128, fun _ _ => 3⟩]).height
      = 128 ∧
    (∀ (i : ℕ)
      (hi : i < ([⟨100, 128, fun _ _ => 1⟩, ⟨100, 128, fun _ _ => 2⟩,
          ⟨40, 128, fun _ _ => 3⟩] : List (ChunkImage ℕ)).length) (u y : ℕ),
      u < (([⟨100, 128, fun _ _ => 1⟩, ⟨100, 128, fun _ _ => 2⟩,
          ⟨40, 128, fun _ _ => 3⟩] : List (ChunkImage ℕ)).get ⟨i, hi⟩).width →
      (stitch (0 : ℕ)
          [⟨100, 128, fun _ _ => 1⟩, ⟨100, 128, fun _ _ => 2⟩,
            ⟨40, 128, fun _ _ => 3⟩]).pix
          (offsetBefore [⟨100, 128, fun _ _ => 1⟩, ⟨100, 128, fun _ _ => 2⟩,
            ⟨40, 128, fun _ _ => 3⟩] i + u) y
        = (([⟨100, 128, fun _ _ => 1⟩, ⟨100, 128, fun _ _ => 2⟩,
            ⟨40, 128, fun _ _ => 3⟩] : List (ChunkImage ℕ)).get ⟨i, hi⟩).pix u y) ∧
    (∀ (f : ℕ → Option (ChunkImage ℕ)) (k : ℕ), k ≠ 0 → ∀ cs : List ℕ,
      batchedMap f k cs = cs.filterMap f) :=
  chunk_stitching ℕ ℕ 0
    [⟨100, 128, fun _ _ => 1⟩, ⟨100, 128, fun _ _ => 2⟩, ⟨40, 128, fun _ _ => 3⟩] 128
    (by simp)
    (by
      intro r hr
      simp only [List.mem_cons, List.not_mem_nil, or_false] at hr
      rcases hr with rfl | rfl | rfl <;> rfl)

/-- C3 (confirmed): the pipeline chunks exactly when
`totalSamples > SEGMENT_DURATION * sampleRate`; the chunker cuts the
buffer into contiguous slices of `chunkSize = ⌊SEGMENT_DURATION *
sampleRate⌋` samples, in original order (their concatenation is the
original buffer), every slice is nonempty with at most `chunkSize`
samples, every slice but the last has exactly `chunkSize` samples, and
the slice count is `⌈totalSamples / chunkSize⌉`. -/
theorem chunking_decision (α : Type) (sampleRate : ℕ) (xs : List α)
    (hr : sampleRate ≠ 0) :
    (shouldChunk xs.length sampleRate = true ↔
      SEGMENT_DURATION * sampleRate < xs.length) ∧
    ((splitChunks (chunkSize sampleRate) xs).flatten = xs) ∧
    ((splitChunks (chunkSize sampleRate) xs).length
      = (xs.length + chunkSize sampleRate - 1) / chunkSize sampleRate) ∧
    (∀ c ∈ splitChunks (chunkSize sampleRate) xs,
      c.length ≤ chunkSize sampleRate ∧ c ≠ []) ∧
    (∀ i : ℕ, i + 1 < (splitChunks (chunkSize sampleRate) xs).length →
      ((splitChunks (chunkSize sampleRate) xs).getD i []).length
        = chunkSize sampleRate) := by
  have hk : chunkSize sampleRate ≠ 0 := by
    simp only [chunkSize, SEGMENT_DURATION]
    omega
  refine ⟨?_, splitChunks_flatten _ hk xs, splitChunks_length _ hk xs,
    splitChunks_mem _ hk xs, fun i hi => splitChunks_getD _ hk xs i hi⟩
  simp [shouldChunk]

/-- Witness for `chunking_decision`: a 25-sample buffer at 1 Hz
(`chunkSize = 10`, so three slices of 10, 10 and 5 samples). -/
theorem chunking_decision_witness :
    (shouldChunk (List.range 25).length 1 = true ↔
      SEGMENT_DURATION * 1 < (List.range 25).length) ∧
    ((splitChunks (chunkSize 1) (List.range 25)).flatten = List.range 25) ∧
    ((splitChunks (chunkSize 1) (List.range 25)).length
      = ((List.range 25).length + chunkSize 1 - 1) / chunkSize 1) ∧
    (∀ c ∈ splitChunks (chunkSize 1) (List.range 25),
      c.length ≤ chunkSize 1 ∧ c ≠ []) ∧
    (∀ i : ℕ, i + 1 < (splitChunks (chunkSize 1) (List.range 25)).length →
      ((splitChunks (chunkSize 1) (List.range 25)).getD i []).length = chunkSize 1) :=
  chunking_decision ℕ 1 (List.range 25) (by decide)

/-! ## Theorems: viewport window invariant and zoom geometry -/

/-- Helper: every branch of the time-update handler keeps the window
width positive. -/
theorem timeUpdate_width_pos (m : Mode) (d : ℚ) (w : Window) (t : ℚ)
    (hs : 0 ≤ w.startTime) (hse : w.startTime < w.endTime) (hed : w.endTime ≤ d)
    (ht0 : 0 ≤ t) (htd : t ≤ d) :
    (timeUpdate m d w t).win.startTime < (timeUpdate m d w t).win.endTime := by
  have hwd : 0 < w.width := by
    simp [Window.width]
    linarith
  cases m <;>
    simp only [timeUpdate, Window.width] <;>
    (try split_ifs) <;>
    (try dsimp only) <;>
    (try linarith) <;>
    simp only [sub_pos, sup_lt_iff, lt_inf_iff, inf_lt_iff, sub_lt_self_iff,
      sup_le_iff, le_inf_iff, inf_le_iff, lt_sup_iff] at * <;>
    (repeat' apply And.intro) <;>
    (try tauto) <;>
    (first
      | linarith
      | (left; linarith)
      | (right; linarith)
      | linarith [@inf_le_left ℚ _ d (w.endTime + (w.endTime - w.startTime)),
          @inf_le_right ℚ _ d (w.endTime + (w.endTime - w.startTime))])

/-- Helper: `nextPage` keeps the window valid and inside `[0, d]`. -/
theorem nextPage_bounds (d : ℚ) (w : Window)
    (hs : 0 ≤ w.startTime) (hse : w.startTime < w.endTime) (hed : w.endTime ≤ d) :
    0 ≤ (nextPage d w).startTime ∧ (nextPage d w).startTime < (nextPage d w).endTime ∧
      (nextPage d w).endTime ≤ d := by
  simp only [nextPage, Window.width]
  refine ⟨le_sup_left, ?_, inf_le_left⟩
  rw [sup_lt_iff]
  constructor
  · rw [lt_inf_iff]
    constructor <;> linarith
  · have h := @inf_le_left ℚ _ d (w.endTime + (w.endTime - w.startTime))
    linarith

/-- Helper: `previousPage` keeps the window valid and inside `[0, d]`. -/
theorem previousPage_bounds (d : ℚ) (w : Window)
    (hs : 0 ≤ w.startTime) (hse : w.startTime < w.endTime) (hed : w.endTime ≤ d) :
    0 ≤ (previousPage d w).startTime ∧
      (previousPage d w).startTime < (previousPage d w).endTime ∧
      (previousPage d w).endTime ≤ d := by
  simp only [previousPage, Window.width]
  refine ⟨le_sup_left, ?_, inf_le_left⟩
  rw [lt_inf_iff]
  constructor
  · rw [sup_lt_iff]
    constructor <;> linarith
  · linarith

/-- Helper: `zoomIn` keeps the window valid and inside `[0, d]`. -/
theorem zoomIn_bounds (d : ℚ) (w : Window) (t : ℚ)
    (hs : 0 ≤ w.startTime) (hse : w.startTime < w.endTime) (hed : w.endTime ≤ d) :
    0 ≤ (zoomIn d w t).1.startTime ∧
      (zoomIn d w t).1.startTime < (zoomIn d w t).1.endTime ∧
      (zoomIn d w t).1.endTime ≤ d := by
  simp only [zoomIn, Window.width]
  split_ifs with h1 h2 <;> dsimp only
  · exact ⟨le_sup_left, by linarith, inf_le_left⟩
  · exact ⟨le_sup_left, by linarith, inf_le_left⟩
  · exact ⟨hs, hse, hed⟩

/-- Helper: `zoomOut` keeps the window valid and inside `[0, d]`. -/
theorem zoomOut_bounds (d : ℚ) (w : Window)
    (hs : 0 ≤ w.startTime) (hse : w.startTime < w.endTime) (hed : w.endTime ≤ d) :
    0 ≤ (zoomOut d w).startTime ∧ (zoomOut d w).startTime < (zoomOut d w).endTime ∧
      (zoomOut d w).endTime ≤ d := by
  simp only [zoomOut, Window.width]
  refine ⟨le_sup_left, ?_, inf_le_left⟩
  rw [sup_lt_iff]
  constructor
  · rw [lt_inf_iff]
    constructor <;> linarith
  · rw [lt_inf_iff]
    constructor <;> linarith

/-- Helper: `setCenterTime` keeps the window valid and inside `[0, d]`
for every requested center. -/
theorem setCenterTime_bounds (d : ℚ) (w : Window) (c : ℚ)
    (hs : 0 ≤ w.startTime) (hse : w.startTime < w.endTime) (hed : w.endTime ≤ d) :
    0 ≤ (setCenterTime d w c).startTime ∧
      (setCenterTime d w c).startTime < (setCenterTime d w c).endTime ∧
      (setCenterTime d w c).endTime ≤ d := by
  simp only [setCenterTime, Window.width]
  split_ifs with h1 h2 h3
  · refine ⟨le_sup_left, ?_, inf_le_left⟩
    rw [sup_lt_iff]
    have hmin := @inf_le_left ℚ _ d (w.endTime - w.startTime)
    constructor <;> linarith
  · have h1' : c - (w.endTime - w.startTime) / 2 ≤ 0 := (sup_le_iff.mp h1).2
    refine ⟨le_sup_left, ?_, inf_le_left⟩
    rw [sup_lt_iff]
    constructor
    · rw [lt_inf_iff]
      constructor <;> linarith
    · rw [lt_inf_iff]
      constructor <;> linarith
  · refine ⟨le_sup_left, ?_, inf_le_left⟩
    rw [sup_lt_iff]
    have hmin := @inf_le_left ℚ _ d (c + (w.endTime - w.startTime) / 2)
    constructor <;> linarith
  · have h1' : 0 < c - (w.endTime - w.startTime) / 2 :=
      ((lt_sup_iff.mp (not_le.mp h1)).resolve_left (lt_irrefl 0))
    have h3' : c + (w.endTime - w.startTime) / 2 < d := by
      by_contra hge
      exact h3 (le_inf_iff.mpr ⟨le_refl d, not_lt.mp hge⟩)
    refine ⟨le_sup_left, ?_, inf_le_left⟩
    rw [sup_lt_iff]
    constructor
    · rw [lt_inf_iff]
      constructor <;> linarith
    · rw [lt_inf_iff]
      constructor <;> linarith

/-- Helper: the scrub handler keeps the window valid and inside
`[0, d]`. -/
theorem scrub_bounds (d : ℚ) (w : Window) (t : ℚ)
    (hs : 0 ≤ w.startTime) (hse : w.startTime < w.endTime) (hed : w.endTime ≤ d)
    (ht0 : 0 ≤ t) (htd : t ≤ d) :
    0 ≤ (timeUpdate Mode.scrub d w t).win.startTime ∧
      (timeUpdate Mode.scrub d w t).win.startTime
        < (timeUpdate Mode.scrub d w t).win.endTime ∧
      (timeUpdate Mode.scrub d w t).win.endTime ≤ d := by
  simp only [timeUpdate, Window.width]
  split_ifs with h1 h2 h3
  · refine ⟨le_sup_left, ?_, le_refl d⟩
    rw [sup_lt_iff]
    constructor <;> linarith
  · have h1' : t - (w.endTime - w.startTime) / 2 ≤ 0 := (sup_le_iff.mp h1).2
    refine ⟨le_sup_left, ?_, inf_le_left⟩
    rw [sup_lt_iff]
    constructor
    · rw [lt_inf_iff]
      constructor <;> linarith
    · rw [lt_inf_iff]
      constructor <;> linarith
  · refine ⟨le_sup_left, ?_, le_refl d⟩
    rw [sup_lt_iff]
    constructor <;> linarith
  · refine ⟨le_sup_left, ?_, inf_le_left⟩
    rw [sup_lt_iff]
    constructor
    · rw [lt_inf_iff]
      constructor <;> linarith
    · rw [lt_inf_iff]
      constructor <;> linarith

/-- C4 (amended): starting from a valid in-bounds window, every
time-update branch of every mode keeps `endTime > startTime`, and the
explicit navigation operations — `nextPage`, `previousPage`, `zoomIn`,
`zoomOut`, `setCenterTime` — as well as the scrub handler additionally
keep both bounds inside `[0, duration]`; but (see the counterexample)
the page/stop overshoot branches and the scroll handler can move a bound
outside `[0, duration]`, so the claimed containment does not hold for
every window update. -/
theorem viewport_window_amended (m : Mode) (d : ℚ) (w : Window) (t c : ℚ)
    (hs : 0 ≤ w.startTime) (hse : w.startTime < w.endTime) (hed : w.endTime ≤ d)
    (ht0 : 0 ≤ t) (htd : t ≤ d) :
    ((timeUpdate m d w t).win.startTime < (timeUpdate m d w t).win.endTime) ∧
    (0 ≤ (nextPage d w).startTime ∧ (nextPage d w).startTime < (nextPage d w).endTime ∧
      (nextPage d w).endTime ≤ d) ∧
    (0 ≤ (previousPage d w).startTime ∧
      (previousPage d w).startTime < (previousPage d w).endTime ∧
      (previousPage d w).endTime ≤ d) ∧
    (0 ≤ (zoomIn d w t).1.startTime ∧
      (zoomIn d w t).1.startTime < (zoomIn d w t).1.endTime ∧
      (zoomIn d w t).1.endTime ≤ d) ∧
    (0 ≤ (zoomOut d w).startTime ∧ (zoomOut d w).startTime < (zoomOut d w).endTime ∧
      (zoomOut d w).endTime ≤ d) ∧
    (0 ≤ (setCenterTime d w c).startTime ∧
      (setCenterTime d w c).startTime < (setCenterTime d w c).endTime ∧
      (setCenterTime d w c).endTime ≤ d) ∧
    (0 ≤ (timeUpdate Mode.scrub d w t).win.startTime ∧
      (timeUpdate Mode.scrub d w t).win.startTime
        < (timeUpdate Mode.scrub d w t).win.endTime ∧
      (timeUpdate Mode.scrub d w t).win.endTime ≤ d) :=
  ⟨timeUpdate_width_pos m d w t hs hse hed ht0 htd,
    nextPage_bounds d w hs hse hed,
    previousPage_bounds d w hs hse hed,
    zoomIn_bounds d w t hs hse hed,
    zoomOut_bounds d w hs hse hed,
    setCenterTime_bounds d w c hs hse hed,
    scrub_bounds d w t hs hse hed ht0 htd⟩

/-- Witness for `viewport_window_amended`: duration 10, window `[2, 5]`,
playhead 3, recenter request 7, in stop mode. -/
theorem viewport_window_amended_witness :
    ((timeUpdate Mode.stop 10 ⟨2, 5⟩ 3).win.startTime
      < (timeUpdate Mode.stop 10 ⟨2, 5⟩ 3).win.endTime) ∧
    (0 ≤ (nextPage 10 ⟨2, 5⟩).startTime ∧
      (nextPage 10 ⟨2, 5⟩).startTime < (nextPage 10 ⟨2, 5⟩).endTime ∧
      (nextPage 10 ⟨2, 5⟩).endTime ≤ 10) ∧
    (0 ≤ (previousPage 10 ⟨2, 5⟩).startTime ∧
      (previousPage 10 ⟨2, 5⟩).startTime < (previousPage 10 ⟨2, 5⟩).endTime ∧
      (previousPage 10 ⟨2, 5⟩).endTime ≤ 10) ∧
    (0 ≤ (zoomIn 10 ⟨2, 5⟩ 3).1.startTime ∧
      (zoomIn 10 ⟨2, 5⟩ 3).1.startTime < (zoomIn 10 ⟨2, 5⟩ 3).1.endTime ∧
      (zoomIn 10 ⟨2, 5⟩ 3).1.endTime ≤ 10) ∧
    (0 ≤ (zoomOut 10 ⟨2, 5⟩).startTime ∧
      (zoomOut 10 ⟨2, 5⟩).startTime < (zoomOut 10 ⟨2, 5⟩).endTime ∧
      (zoomOut 10 ⟨2, 5⟩).endTime ≤ 10) ∧
    (0 ≤ (setCenterTime 10 ⟨2, 5⟩ 7).startTime ∧
      (setCenterTime 10 ⟨2, 5⟩ 7).startTime < (setCenterTime 10 ⟨2, 5⟩ 7).endTime ∧
      (setCenterTime 10 ⟨2, 5⟩ 7).endTime ≤ 10) ∧
    (0 ≤ (timeUpdate Mode.scrub 10 ⟨2, 5⟩ 3).win.startTime ∧
      (timeUpdate Mode.scrub 10 ⟨2, 5⟩ 3).win.startTime
        < (timeUpdate Mode.scrub 10 ⟨2, 5⟩ 3).win.endTime ∧
      (timeUpdate Mode.scrub 10 ⟨2, 5⟩ 3).win.endTime ≤ 10) :=
  viewport_window_amended Mode.stop 10 ⟨2, 5⟩ 3 7
    (by norm_num) (by norm_num) (by norm_num) (by norm_num) (by norm_num)

/-- C4 counterexample: in stop mode with duration 10, window
`[8.5, 9.8]` and a reported time `9.95 ∈ [0, 10]` — all inside bounds —
the overshoot branch moves the window to `[9.8, 11.1]`, whose `endTime`
exceeds the duration: the invariant `endTime ≤ duration` is violated by
a reachable window update. -/
theorem viewport_escapes_bounds_cex :
    ((0:ℚ) ≤ 17/2 ∧ (17:ℚ)/2 < 49/5 ∧ (49:ℚ)/5 ≤ 10 ∧
      (0:ℚ) ≤ 199/20 ∧ (199:ℚ)/20 ≤ 10) ∧
    (timeUpdate Mode.stop 10 ⟨17/2, 49/5⟩ (199/20)).win.endTime = 111/10 ∧
    (10:ℚ) < (timeUpdate Mode.stop 10 ⟨17/2, 49/5⟩ (199/20)).win.endTime := by
  have hval : (timeUpdate Mode.stop 10 ⟨17/2, 49/5⟩ (199/20)).win.endTime = 111/10 := by
    norm_num [timeUpdate, Window.width]
  refine ⟨by norm_num, hval, ?_⟩
  rw [hval]
  norm_num

/-- Helper: under the width floor, `zoomIn` never clamps from an
in-bounds window; both sides move inward by 20 % of the width and the
playhead is recomputed only when it leaves the shrunken window. -/
theorem zoomIn_eq_of_floor (d : ℚ) (w : Window) (t : ℚ)
    (hs : 0 ≤ w.startTime) (hse : w.startTime < w.endTime) (hed : w.endTime ≤ d)
    (hfloor : (1:ℚ)/10 ≤ (3/5) * w.width) :
    zoomIn d w t =
      (⟨w.startTime + w.width * (1/5), w.endTime - w.width * (1/5)⟩,
        if t < w.startTime + w.width * (1/5) ∨ w.endTime - w.width * (1/5) < t
        then w.startTime + w.width * (1/5)
          + ((3/5) * w.width) * ((t - w.startTime) / w.width)
        else t) := by
  have hwd : 0 < w.endTime - w.startTime := by linarith
  simp only [zoomIn, Window.width] at hfloor ⊢
  have hns : (0:ℚ) ⊔ (w.startTime + (w.endTime - w.startTime) * (1/5))
      = w.startTime + (w.endTime - w.startTime) * (1/5) :=
    sup_eq_right.mpr (by linarith)
  have hne : d ⊓ (w.endTime - (w.endTime - w.startTime) * (1/5))
      = w.endTime - (w.endTime - w.startTime) * (1/5) :=
    inf_eq_right.mpr (by linarith)
  rw [hns, hne]
  rw [if_pos (by linarith :
    (1:ℚ)/10 ≤ w.endTime - (w.endTime - w.startTime) * (1/5)
      - (w.startTime + (w.endTime - w.startTime) * (1/5)))]
  refine Prod.ext rfl ?_
  split_ifs with hc
  · ring
  · rfl

/-- C6 (amended): from a valid in-bounds window, one `zoomIn` step
removes 20 % of the current width from each side — shrinking the width
to 60 %, i.e. by 40 %, not by 20 % — provided the shrunken width stays
at or above the `0.1` s floor (a changed window is never narrower than
the floor); the playhead's absolute position is kept when it remains
inside the shrunken window (so its relative position generally changes),
and only when it falls outside is it moved to the position with its old
relative offset; one `zoomOut` step adds 33 % of the width to each side
(growing the width by 66 %) whenever the clamps to `[0, duration]` do
not bind. -/
theorem zoom_steps_amended (d : ℚ) (w : Window) (t : ℚ)
    (hs : 0 ≤ w.startTime) (hse : w.startTime < w.endTime) (hed : w.endTime ≤ d) :
    ((1:ℚ)/10 ≤ (3/5) * w.width →
      (zoomIn d w t).1 = ⟨w.startTime + w.width * (1/5), w.endTime - w.width * (1/5)⟩ ∧
      (zoomIn d w t).1.width = (3/5) * w.width) ∧
    ((zoomIn d w t).1 ≠ w → (1:ℚ)/10 ≤ (zoomIn d w t).1.width) ∧
    ((1:ℚ)/10 ≤ (3/5) * w.width →
      w.startTime + w.width * (1/5) ≤ t → t ≤ w.endTime - w.width * (1/5) →
      (zoomIn d w t).2 = t) ∧
    ((1:ℚ)/10 ≤ (3/5) * w.width →
      (t < w.startTime + w.width * (1/5) ∨ w.endTime - w.width * (1/5) < t) →
      ((zoomIn d w t).2 - (zoomIn d w t).1.startTime) / (zoomIn d w t).1.width
        = (t - w.startTime) / w.width) ∧
    (w.width * (1/3) ≤ w.startTime → w.endTime + w.width * (1/3) ≤ d →
      zoomOut d w = ⟨w.startTime - w.width * (1/3), w.endTime + w.width * (1/3)⟩ ∧
      (zoomOut d w).width = (5/3) * w.width) := by
  have hwd : 0 < w.width := by
    simp only [Window.width]
    linarith
  refine ⟨?_, ?_, ?_, ?_, ?_⟩
  · intro hfloor
    rw [zoomIn_eq_of_floor d w t hs hse hed hfloor]
    constructor
    · rfl
    · simp only [Window.width]
      ring
  · simp only [zoomIn, Window.width]
    split_ifs with h1 h2 <;> dsimp only
    · intro _
      simpa [Window.width] using h1
    · intro _
      simpa [Window.width] using h1
    · intro hne
      exact absurd rfl hne
  · intro hfloor hin1 hin2
    rw [zoomIn_eq_of_floor d w t hs hse hed hfloor]
    dsimp only
    rw [if_neg]
    push_neg
    exact ⟨hin1, hin2⟩
  · intro hfloor hout
    rw [zoomIn_eq_of_floor d w t hs hse hed hfloor]
    dsimp only
    rw [if_pos hout]
    have h35 : (0:ℚ) < (3/5) * w.width := lt_of_lt_of_le (by norm_num) hfloor
    have hden : (Window.mk (w.startTime + w.width * (1/5))
        (w.endTime - w.width * (1/5))).width = (3/5) * w.width := by
      simp only [Window.width]
      ring
    have hnum : w.startTime + w.width * (1/5)
        + (3/5) * w.width * ((t - w.startTime) / w.width)
        - (Window.mk (w.startTime + w.width * (1/5))
            (w.endTime - w.width * (1/5))).startTime
        = (3/5) * w.width * ((t - w.startTime) / w.width) := by
      dsimp only
      ring
    rw [hnum, hden]
    exact mul_div_cancel_left₀ _ (ne_of_gt h35)
  · intro hzs hze
    simp only [zoomOut, Window.width] at hzs hze ⊢
    have hns : (0:ℚ) ⊔ (w.startTime - (w.endTime - w.startTime) * (1/3))
        = w.startTime - (w.endTime - w.startTime) * (1/3) :=
      sup_eq_right.mpr (by linarith)
    have hne : d ⊓ (w.endTime + (w.endTime - w.startTime) * (1/3))
        = w.endTime + (w.endTime - w.startTime) * (1/3) :=
      inf_eq_right.mpr (by linarith)
    rw [hns, hne]
    exact ⟨rfl, by ring⟩

/-- Witness for `zoom_steps_amended`: duration 100, window `[10, 20]`,
playhead 12. -/
theorem zoom_steps_amended_witness :
    ((1:ℚ)/10 ≤ (3/5) * (Window.mk 10 20).width →
      (zoomIn 100 ⟨10, 20⟩ 12).1
        = ⟨(Window.mk 10 20).startTime + (Window.mk 10 20).width * (1/5),
            (Window.mk 10 20).endTime - (Window.mk 10 20).width * (1/5)⟩ ∧
      (zoomIn 100 ⟨10, 20⟩ 12).1.width = (3/5) * (Window.mk 10 20).width) ∧
    ((zoomIn 100 ⟨10, 20⟩ 12).1 ≠ ⟨10, 20⟩ →
      (1:ℚ)/10 ≤ (zoomIn 100 ⟨10, 20⟩ 12).1.width) ∧
    ((1:ℚ)/10 ≤ (3/5) * (Window.mk 10 20).width →
      (Window.mk 10 20).startTime + (Window.mk 10 20).width * (1/5) ≤ 12 →
      (12:ℚ) ≤ (Window.mk 10 20).endTime - (Window.mk 10 20).width * (1/5) →
      (zoomIn 100 ⟨10, 20⟩ 12).2 = 12) ∧
    ((1:ℚ)/10 ≤ (3/5) * (Window.mk 10 20).width →
      ((12:ℚ) < (Window.mk 10 20).startTime + (Window.mk 10 20).width * (1/5) ∨
        (Window.mk 10 20).endTime - (Window.mk 10 20).width * (1/5) < 12) →
      ((zoomIn 100 ⟨10, 20⟩ 12).2 - (zoomIn 100 ⟨10, 20⟩ 12).1.startTime)
          / (zoomIn 100 ⟨10, 20⟩ 12).1.width
        = ((12:ℚ) - (Window.mk 10 20).startTime) / (Window.mk 10 20).width) ∧
    ((Window.mk 10 20).width * (1/3) ≤ (Window.mk 10 20).startTime →
      (Window.mk 10 20).endTime + (Window.mk 10 20).width * (1/3) ≤ 100 →
      zoomOut 100 ⟨10, 20⟩
        = ⟨(Window.mk 10 20).startTime - (Window.mk 10 20).width * (1/3),
            (Window.mk 10 20).endTime + (Window.mk 10 20).width * (1/3)⟩ ∧
      (zoomOut 100 ⟨10, 20⟩).width = (5/3) * (Window.mk 10 20).width) :=
  zoom_steps_amended 100 ⟨10, 20⟩ 12 (by norm_num) (by norm_num) (by norm_num)

/-- C6 counterexample: duration 100, window `[10, 20]`, playhead at 12.
One `zoomIn` yields window `[12, 18]` with the playhead left at 12: the
width went from 10 to 6 (a 40 % shrink, not the claimed 20 %, which
would give width 8), and the playhead's relative position changed from
`1/5` to `0` instead of being preserved. -/
theorem zoom_twenty_percent_cex :
    (zoomIn 100 ⟨10, 20⟩ 12).1 = ⟨12, 18⟩ ∧
    (zoomIn 100 ⟨10, 20⟩ 12).2 = 12 ∧
    (zoomIn 100 ⟨10, 20⟩ 12).1.width = 6 ∧
    ((4:ℚ)/5) * (Window.mk 10 20).width = 8 ∧
    ((6:ℚ) = 8 → False) ∧
    ((12:ℚ) - 10) / (Window.mk 10 20).width = 1/5 ∧
    ((zoomIn 100 ⟨10, 20⟩ 12).2 - (zoomIn 100 ⟨10, 20⟩ 12).1.startTime)
        / (zoomIn 100 ⟨10, 20⟩ 12).1.width = 0 ∧
    ((0:ℚ) = 1/5 → False) := by
  have hz : zoomIn 100 ⟨10, 20⟩ 12 = (⟨12, 18⟩, 12) := by
    norm_num [zoomIn, Window.width]
  refine ⟨by rw [hz], by rw [hz], by rw [hz]; norm_num [Window.width],
    by norm_num [Window.width], by norm_num, by norm_num [Window.width],
    by rw [hz]; norm_num [Window.width], by norm_num⟩

end SpecPlayer
